import Mathlib

/-!
Verification of the status subsystem of the blimp cluster controller
(`cluster-controller/status.go`).

The Go code is embedded shallowly:

* Kubernetes objects (`Pod`, `ContainerStatus`, `Event`, ...) become Lean
  structures carrying exactly the fields the code reads.  Go pointers that
  encode optional sub-objects become `Option`; Go zero values become the
  structures' default field values.
* `metav1.Time` becomes `Nat`; `0` plays the role of the zero time
  (`IsZero`), and `Before` is strict `<` on `Nat`.
* The informer/lister caches become explicit data: a `StatusFetcher`
  record holding the cached pods, per-namespace cached events, a
  namespace-lookup function, and an injected transport error for the pod
  lister (the cache read surfaces of client-go, which are external to the
  repository, are modelled at their interface).
* Go `map` values become association lists with insert-replace /
  delete-key operations, so that key presence is observable.
* Fallible Go functions returning `(T, error)` become `Except String T`.

All definitions are executable; theorems about them follow at the end of
the file.
-/

namespace BlimpStatus

/-- `cluster.ServicePhase` (wire enum of the status vocabulary). -/
inductive ServicePhase where
  | INITIALIZING_VOLUMES
  | WAIT_DEPENDS_ON
  | WAIT_SYNC_BIND
  | PENDING
  | RUNNING
  | UNHEALTHY
  | EXITED
  | UNKNOWN
deriving DecidableEq, Repr

/-- Modelled from the spec: the protobuf declaration of `ServicePhase` is
outside this subsystem; the spec's §3 lists `INITIALIZING_VOLUMES` first in
the enum vocabulary, so it is taken as the zero value that Go uses for an
uninitialized `cluster.ServicePhase` variable. -/
def servicePhaseZero : ServicePhase := .INITIALIZING_VOLUMES

/-- `cluster.SandboxStatus_...` phases used by `Get`. -/
inductive SandboxPhase where
  | DOES_NOT_EXIST
  | TERMINATING
  | RUNNING
deriving DecidableEq, Repr

/-- `cluster.ServiceStatus`.  Defaults are the Go zero values, so a Go
struct literal that omits fields is written by omitting the same fields. -/
structure ServiceStatus where
  phase : ServicePhase := servicePhaseZero
  msg : String := ""
  hasStarted : Bool := false
deriving DecidableEq, Repr

/-- `corev1.ContainerStateWaiting` (the fields the code reads). -/
structure ContainerStateWaiting where
  reason : String := ""
  message : String := ""
deriving DecidableEq, Repr

/-- `corev1.ContainerStateTerminated` (the fields the code reads). -/
structure ContainerStateTerminated where
  reason : String := ""
  message : String := ""
deriving DecidableEq, Repr

/-- `corev1.ContainerState`: three pointer fields in Go, so three options
here.  (The `Running` sub-object carries only a start time, which the code
never reads, hence `Option Unit`.) -/
structure ContainerState where
  running : Option Unit := none
  waiting : Option ContainerStateWaiting := none
  terminated : Option ContainerStateTerminated := none
deriving DecidableEq, Repr

/-- `corev1.ContainerStatus` (the fields the code reads). -/
structure ContainerStatus where
  name : String := ""
  state : ContainerState := {}
  ready : Bool := false
  restartCount : Nat := 0
deriving DecidableEq, Repr

/-- `corev1.PodStatus` (the fields the code reads).  `corev1.PodPhase` is a
string type in Go, so `phase` is a `String`. -/
structure PodStatus where
  phase : String := ""
  initContainerStatuses : List ContainerStatus := []
  containerStatuses : List ContainerStatus := []
deriving DecidableEq, Repr

/-- `corev1.Pod` (the fields the code reads).  `nsName` is the Go
`Namespace` metadata field (`namespace` is a Lean keyword); `labels` is the
pod's label map, as an association list. -/
structure Pod where
  nsName : String := ""
  name : String := ""
  labels : List (String × String) := []
  status : PodStatus := {}
deriving DecidableEq, Repr

/-- `corev1.ObjectReference` (the fields `isPulling` reads).  `nsName` is
the Go `Namespace` field. -/
structure ObjectReference where
  kind : String := ""
  nsName : String := ""
  name : String := ""
  fieldPath : String := ""
deriving DecidableEq, Repr

/-- `corev1.Event` (the fields `isPulling` reads).  `lastTimestamp` models
`metav1.Time`, with `0` as the zero time. -/
structure Event where
  involvedObject : ObjectReference := {}
  reason : String := ""
  lastTimestamp : Nat := 0
deriving DecidableEq, Repr

/-- The constant `imagePullFailureMsg` of status.go. -/
def imagePullFailureMsg : String :=
  "Failed to pull image. Make sure that the image exists, " ++
    "and that Blimp has access to it."

/-- The constant `imagePullingMsg` of status.go. -/
def imagePullingMsg : String := "Pulling image"

/-- Modelled from the spec: the well-known init-container name constants
(`ContainerNameCopyBusybox` etc.) are declared outside this subsystem; the
spec's end-to-end example names `copy-busybox` and
`initialize-volume-from-image`, and the remaining values follow the same
naming convention.  Only their identities (not their spellings) matter to
the theorems below. -/
def ContainerNameCopyBusybox : String := "copy-busybox"

/-- Modelled from the spec: see `ContainerNameCopyBusybox`. -/
def ContainerNameCopyVCP : String := "copy-vcp"

/-- Modelled from the spec: see `ContainerNameCopyBusybox`. -/
def ContainerNameInitializeVolumeFromImage : String :=
  "initialize-volume-from-image"

/-- Modelled from the spec: see `ContainerNameCopyBusybox`. -/
def ContainerNameWaitDependsOn : String := "wait-depends-on"

/-- Modelled from the spec: see `ContainerNameCopyBusybox`. -/
def ContainerNameWaitInitialSync : String := "wait-initial-sync"

/-! ## isPulling (status.go lines 224-262) -/

/-- One iteration of the event loop of `isPulling`: skip events whose
involved object does not match, otherwise raise the `Pulling` / `Pulled`
running maxima exactly as the Go code does (`IsZero` = `= 0`, `Before` =
`<`).  The accumulator is `(pullStarted, pullCompleted)`. -/
def pullScanStep (nsName podName fieldPath : String) (acc : Nat × Nat)
    (event : Event) : Nat × Nat :=
  if event.involvedObject.kind ≠ "Pod" ∨
      event.involvedObject.nsName ≠ nsName ∨
      event.involvedObject.name ≠ podName ∨
      event.involvedObject.fieldPath ≠ fieldPath then
    acc
  else if event.reason = "Pulling" then
    (if acc.1 = 0 ∨ acc.1 < event.lastTimestamp then event.lastTimestamp
     else acc.1, acc.2)
  else if event.reason = "Pulled" then
    (acc.1,
     if acc.2 = 0 ∨ acc.2 < event.lastTimestamp then event.lastTimestamp
     else acc.2)
  else acc

/-- `statusFetcher.isPulling`.  The `events` argument is the cached event
list for the namespace (`eventsLister.Events(namespace).List(Everything)`;
the cache read itself cannot fail, so the logged-and-`false` error branch
of the Go code is not reachable in the model). -/
def isPulling (events : List Event) (nsName podName fieldPath : String) :
    Bool :=
  let r := events.foldl (pullScanStep nsName podName fieldPath) (0, 0)
  !(r.1 == 0) && (r.2 == 0 || r.2 < r.1)

/-- Whether an event's involved object matches the query of `isPulling`
(kind `Pod`, same namespace, pod name and field path). -/
def eventMatches (nsName podName fieldPath : String) (e : Event) : Bool :=
  e.involvedObject.kind == "Pod" && e.involvedObject.nsName == nsName &&
    e.involvedObject.name == podName &&
    e.involvedObject.fieldPath == fieldPath

/-- Maximum `lastTimestamp` among matching events with the given reason
(`0` when there is none). -/
def maxMatchingTs (nsName podName fieldPath reason : String)
    (events : List Event) : Nat :=
  events.foldr
    (fun e acc =>
      if eventMatches nsName podName fieldPath e && e.reason == reason then
        max e.lastTimestamp acc
      else acc)
    0

/-! ## The service-status classifier (status.go lines 264-377) -/

/-- `isImagePullFailure` (status.go lines 374-377). -/
def isImagePullFailure (cs : ContainerStatus) : Bool :=
  match cs.state.waiting with
  | some w => w.reason == "ErrImagePull" || w.reason == "ImagePullBackOff"
  | none => false

/-- The `switch c.Name` at the top of the init-container loop: map a
well-known init-container name to a phase; an unrecognized name leaves the
`phase` variable at its Go zero value. -/
def initContainerPhase (name : String) : ServicePhase :=
  if name = ContainerNameCopyBusybox ∨ name = ContainerNameCopyVCP ∨
      name = ContainerNameInitializeVolumeFromImage then
    .INITIALIZING_VOLUMES
  else if name = ContainerNameWaitDependsOn then .WAIT_DEPENDS_ON
  else if name = ContainerNameWaitInitialSync then .WAIT_SYNC_BIND
  else servicePhaseZero

/-- The init-container loop of `getServiceStatus` (status.go lines
267-313): `none` means the loop fell through (every init container had
terminated with reason `Completed`); `some st` means the loop returned
`st`. -/
def initContainerScan (events : List Event) (nsName podName : String) :
    List ContainerStatus → Option ServiceStatus
  | [] => none
  | c :: rest =>
    let phase := initContainerPhase c.name
    match c.state.terminated with
    | some t =>
      if t.reason = "Completed" then
        initContainerScan events nsName podName rest
      else
        some { phase := phase
               msg := "Unexpected system error: " ++ t.message }
    | none =>
      if c.name = ContainerNameInitializeVolumeFromImage then
        if isImagePullFailure c then
          some { phase := .PENDING, msg := imagePullFailureMsg }
        else if isPulling events nsName podName
            ("spec.initContainers\x7b" ++
              ContainerNameInitializeVolumeFromImage ++ "\x7d") then
          some { phase := .PENDING, msg := imagePullingMsg }
        else some { phase := phase }
      else some { phase := phase }

/-- The single-main-container `switch` of `getServiceStatus` (status.go
lines 317-358): `none` means none of the three state cases applied and
control falls through to the pod-phase fallback. -/
def mainContainerScan (events : List Event) (nsName podName : String)
    (cs : ContainerStatus) : Option ServiceStatus :=
  match cs.state.running with
  | some _ =>
    if !cs.ready then some { phase := .UNHEALTHY, hasStarted := true }
    else some { phase := .RUNNING, hasStarted := true }
  | none =>
    match cs.state.waiting with
    | some w =>
      if isImagePullFailure cs then
        some { phase := .PENDING, msg := imagePullFailureMsg }
      else if isPulling events nsName podName
          ("spec.containers\x7b" ++ cs.name ++ "\x7d") then
        some { phase := .PENDING, msg := imagePullingMsg
               hasStarted := decide (cs.restartCount > 0) }
      else
        some { phase := .PENDING, msg := w.message
               hasStarted := decide (cs.restartCount > 0) }
    | none =>
      match cs.state.terminated with
      | some t =>
        some { phase := .EXITED, msg := t.message, hasStarted := true }
      | none => none

/-- The pod-phase fallback at the bottom of `getServiceStatus` (status.go
lines 361-371). -/
def podPhaseFallback (phase : String) : ServiceStatus :=
  if phase = "Running" then { phase := .RUNNING }
  else if phase = "Pending" then { phase := .PENDING }
  else if phase = "Succeeded" ∨ phase = "Failed" then { phase := .EXITED }
  else { phase := .UNKNOWN }

/-- `statusFetcher.getServiceStatus` (status.go lines 264-372).  The
`events` argument is the cached event list of the pod's namespace, which
the Go code reaches through `sf.isPulling(pod.Namespace, ...)`. -/
def getServiceStatus (events : List Event) (pod : Pod) : ServiceStatus :=
  match initContainerScan events pod.nsName pod.name
      pod.status.initContainerStatuses with
  | some st => st
  | none =>
    match pod.status.containerStatuses with
    | [cs] =>
      match mainContainerScan events pod.nsName pod.name cs with
      | some st => st
      | none => podPhaseFallback pod.status.phase
    | _ => podPhaseFallback pod.status.phase

/-! ## Get (status.go lines 190-222) -/

/-- Result of `namespaceLister.Get`: the namespace's cached phase
(`corev1.NamespacePhase` is a string type; `NamespaceTerminating` is
`"Terminating"`), a not-found error, or another lookup error. -/
inductive NsLookup where
  | found (phase : String)
  | notFound
  | lookupErr (msg : String)
deriving DecidableEq, Repr

/-- `cluster.SandboxStatus`.  The `services` map is an association list so
that key presence is observable. -/
structure SandboxStatus where
  phase : SandboxPhase
  services : List (String × ServiceStatus) := []
deriving DecidableEq, Repr

/-- The cache surfaces `Get` reads: the namespace lister, the cached pods,
an injected transport error for the pod lister's `List` call, and the
per-namespace cached events. -/
structure StatusFetcher where
  nsLookup : String → NsLookup
  pods : List Pod := []
  podListErr : String → Option String := fun _ => none
  events : String → List Event := fun _ => []

/-- First value under key `k` in a pod's label map (`nil`-able in Go). -/
def findLabel (p : Pod) (k : String) : Option String :=
  (p.labels.find? (fun kv => kv.1 == k)).map (fun kv => kv.2)

/-- Go map read `pod.GetLabels()[k]`: the empty string when absent. -/
def getLabel (p : Pod) (k : String) : String := (findLabel p k).getD ""

/-- The equality selector `labels.Set{"blimp.customerPod": "true"}`
matches a pod iff its label map carries exactly that pair. -/
def isSandboxPod (p : Pod) : Bool :=
  findLabel p "blimp.customerPod" == some "true"

/-- `podLister.Pods(namespace).List(selector)`: the injected transport
error, or the cached pods of the namespace that match the selector. -/
def listSandboxPods (sf : StatusFetcher) (nsName : String) :
    Except String (List Pod) :=
  match sf.podListErr nsName with
  | some e => .error e
  | none =>
    .ok (sf.pods.filter (fun p => p.nsName == nsName && isSandboxPod p))

/-- Modelled from the spec: `errors.WithContext` lives in the repository's
`pkg/errors`, outside this subsystem; per the spec it wraps an error with
operation context, modelled as prefixing the context to the message. -/
def withContext (ctx msg : String) : String := ctx ++ ": " ++ msg

/-- Go map assignment `m[k] = v` on an association list: replace the value
in place if the key is present, otherwise add the binding. -/
def alInsert {α β : Type} [DecidableEq α] :
    List (α × β) → α → β → List (α × β)
  | [], k, v => [(k, v)]
  | (k', v') :: rest, k, v =>
    if k' = k then (k, v) :: rest else (k', v') :: alInsert rest k v

/-- Association-list lookup (Go map read, presence observable). -/
def alLookup {α β : Type} [DecidableEq α] : List (α × β) → α → Option β
  | [], _ => none
  | (k', v) :: rest, k => if k' = k then some v else alLookup rest k

/-- Go `delete(m, k)` on an association list. -/
def alErase {α β : Type} [DecidableEq α] : List (α × β) → α → List (α × β)
  | [], _ => []
  | (k', v') :: rest, k =>
    if k' = k then alErase rest k else (k', v') :: alErase rest k

/-- The `services` loop of `Get` (status.go lines 212-217): one map entry
per pod, keyed by the pod's `blimp.service` label, holding
`getServiceStatus` of the pod. -/
def buildServices (sf : StatusFetcher) (pods : List Pod) :
    List (String × ServiceStatus) :=
  pods.foldl
    (fun acc p =>
      alInsert acc (getLabel p "blimp.service")
        (getServiceStatus (sf.events p.nsName) p))
    []

/-- `statusFetcher.Get` (status.go lines 190-222).  The Go signature
returns `(cluster.SandboxStatus, error)` with a zero status whenever the
error is non-nil, so the pair is modelled as `Except`. -/
def Get (sf : StatusFetcher) (nsName : String) :
    Except String SandboxStatus :=
  match sf.nsLookup nsName with
  | .notFound => .ok { phase := .DOES_NOT_EXIST }
  | .lookupErr e => .error (withContext "get sandbox" e)
  | .found ph =>
    if ph = "Terminating" then .ok { phase := .TERMINATING }
    else
      match listSandboxPods sf nsName with
      | .error e => .error (withContext "get services" e)
      | .ok pods => .ok { phase := .RUNNING, services := buildServices sf pods }

/-! ## The watcher registry (status.go lines 132-188)

A notification channel `make(chan struct{}, 1)` is modelled by its number
of buffered signals (a `Nat`); the registry's
`map[string]map[int]chan struct{}` becomes a nested association list, so
that the channels' states live inside the registry value.  The `idCtr`
field is a Go `int`, 64-bit on the platforms the controller targets, so
the increment is taken modulo `2 ^ 64`.  The two mutexes serialize the
operations, so an interleaving is a sequence of atomic operations. -/

/-- Capacity of a notifier channel (`make(chan struct{}, 1)`). -/
def chanCap : Nat := 1

/-- Go `int` modeled as 64-bit: the modulus of `idCtr` arithmetic. -/
def goIntMod : Nat := 2 ^ 64

/-- Outcome of one channel-send attempt.  `blocked` is what a bare send on
a full channel with no waiting receiver would do; the `select`/`default`
the code uses never produces it. -/
inductive SendOutcome where
  | delivered
  | dropped
  | blocked
deriving DecidableEq, Repr

/-- Semantics of `select { case client <- struct{}{}: default: }` on a
buffered channel holding `pending` signals and no waiting receiver: buffer
the signal if there is room, otherwise drop it; never block. -/
def trySend (pending : Nat) : Nat × SendOutcome :=
  if pending < chanCap then (pending + 1, .delivered) else (pending, .dropped)

/-- The watcher registry: `watchers` is the
namespace → (id → channel-state) map, `idCtr` the id counter. -/
structure Registry where
  watchers : List (String × List (Nat × Nat)) := []
  idCtr : Nat := 0
deriving DecidableEq, Repr

/-- `statusFetcher.Watch` (status.go lines 132-157), up to the point where
it hands `notifier` and `stop` to the caller: allocate the next id, create
a fresh empty channel and register it.  Returns the new registry and the
allocated id.  (The spawned cleanup waiter reacts to `stop` by calling
`removeWatcher`, which is a separate operation below.) -/
def Watch (r : Registry) (nsName : String) : Registry × Nat :=
  let id := (r.idCtr + 1) % goIntMod
  let inner := (alLookup r.watchers nsName).getD []
  ({ watchers := alInsert r.watchers nsName (alInsert inner id 0)
     idCtr := id },
   id)

/-- `statusFetcher.notifyWatchers` (status.go lines 159-169): for every
channel registered under the namespace, a non-blocking send.  Returns the
new registry and the outcomes of the send attempts. -/
def notifyWatchers (r : Registry) (nsName : String) :
    Registry × List SendOutcome :=
  match alLookup r.watchers nsName with
  | none => (r, [])
  | some inner =>
    ({ r with
        watchers := alInsert r.watchers nsName
          (inner.map (fun ic => (ic.1, (trySend ic.2).1))) },
     inner.map (fun ic => (trySend ic.2).2))

/-- `statusFetcher.removeWatcher` (status.go lines 171-188): a no-op with
a logged warning (the returned `Bool`) when the namespace entry is absent;
otherwise delete the id and drop the namespace entry if its inner map
became empty. -/
def removeWatcher (r : Registry) (nsName : String) (id : Nat) :
    Registry × Bool :=
  match alLookup r.watchers nsName with
  | none => (r, true)
  | some inner =>
    let inner' := alErase inner id
    if inner'.isEmpty then
      ({ r with watchers := alErase r.watchers nsName }, false)
    else
      ({ r with watchers := alInsert r.watchers nsName inner' }, false)

/-- One serialized registry operation (the mutexes make each atomic). -/
inductive WatcherOp where
  | watch (nsName : String)
  | notify (nsName : String)
  | remove (nsName : String) (id : Nat)
deriving DecidableEq, Repr

/-- Run a sequence of registry operations; also collect the ids the
`watch` operations allocate, in order. -/
def runOps : Registry → List WatcherOp → Registry × List Nat
  | r, [] => (r, [])
  | r, .watch n :: rest =>
    let p := Watch r n
    let q := runOps p.1 rest
    (q.1, p.2 :: q.2)
  | r, .notify n :: rest => runOps (notifyWatchers r n).1 rest
  | r, .remove n i :: rest => runOps (removeWatcher r n i).1 rest

/-- Number of `watch` operations in a sequence. -/
def countWatch : List WatcherOp → Nat
  | [] => 0
  | .watch _ :: rest => countWatch rest + 1
  | .notify _ :: rest => countWatch rest
  | .remove _ _ :: rest => countWatch rest

/-- Repeat `notifyWatchers` for the namespace `n` times, collecting every
send outcome. -/
def notifyRepeat : Nat → Registry → String → Registry × List SendOutcome
  | 0, r, _ => (r, [])
  | n + 1, r, nsName =>
    let p := notifyWatchers r nsName
    let q := notifyRepeat n p.1 nsName
    (q.1, p.2 ++ q.2)

/-- Buffered-signal count of the channel registered under
`nsName` / `id`, when present. -/
def pendingOf (r : Registry) (nsName : String) (id : Nat) : Option Nat :=
  (alLookup r.watchers nsName).bind (fun inner => alLookup inner id)

/-! ## Theorems: isPulling (C1) -/

/-- The Go maximum-update idiom of `isPulling` computes a `Nat` maximum. -/
theorem updMax (a t : Nat) : (if a = 0 ∨ a < t then t else a) = max a t := by
  by_cases h0 : a = 0
  · subst h0
    by_cases ht : 0 < t
    · simp [ht]
    · interval_cases t
      simp
  · by_cases hlt : a < t
    · simp [hlt, Nat.max_eq_right (Nat.le_of_lt hlt)]
    · simp [h0, hlt, Nat.max_eq_left (Nat.le_of_not_lt hlt)]

/-- The event scan of `isPulling` computes, in each component, the maximum
of the accumulator and the maximum matching `Pulling` / `Pulled`
timestamp. -/
theorem pullScan_eq_max (nsName podName fieldPath : String) :
    ∀ (events : List Event) (a b : Nat),
      events.foldl (pullScanStep nsName podName fieldPath) (a, b) =
        (max a (maxMatchingTs nsName podName fieldPath "Pulling" events),
         max b (maxMatchingTs nsName podName fieldPath "Pulled" events)) := by
  intro events
  induction events with
  | nil => intro a b; simp [maxMatchingTs]
  | cons e es ih =>
    intro a b
    rw [List.foldl_cons]
    by_cases hm : eventMatches nsName podName fieldPath e = true
    · have hk : e.involvedObject.kind = "Pod" := by
        simp [eventMatches] at hm; exact hm.1.1.1
      have hn : e.involvedObject.nsName = nsName := by
        simp [eventMatches] at hm; exact hm.1.1.2
      have hp : e.involvedObject.name = podName := by
        simp [eventMatches] at hm; exact hm.1.2
      have hf : e.involvedObject.fieldPath = fieldPath := by
        simp [eventMatches] at hm; exact hm.2
      by_cases hr : e.reason = "Pulling"
      · have hstep : pullScanStep nsName podName fieldPath (a, b) e =
            (max a e.lastTimestamp, b) := by
          simp [pullScanStep, hk, hn, hp, hf, hr, updMax]
        rw [hstep, ih]
        have hmax : maxMatchingTs nsName podName fieldPath "Pulling" (e :: es) =
            max e.lastTimestamp
              (maxMatchingTs nsName podName fieldPath "Pulling" es) := by
          simp [maxMatchingTs, hm, hr]
        have hmax' : maxMatchingTs nsName podName fieldPath "Pulled" (e :: es) =
            maxMatchingTs nsName podName fieldPath "Pulled" es := by
          simp [maxMatchingTs, hr]
        rw [hmax, hmax', Nat.max_assoc]
      · by_cases hr2 : e.reason = "Pulled"
        · have hstep : pullScanStep nsName podName fieldPath (a, b) e =
              (a, max b e.lastTimestamp) := by
            simp [pullScanStep, hk, hn, hp, hf, hr, hr2, updMax]
          rw [hstep, ih]
          have hmax : maxMatchingTs nsName podName fieldPath "Pulling" (e :: es) =
              maxMatchingTs nsName podName fieldPath "Pulling" es := by
            simp [maxMatchingTs, hr]
          have hmax' : maxMatchingTs nsName podName fieldPath "Pulled" (e :: es) =
              max e.lastTimestamp
                (maxMatchingTs nsName podName fieldPath "Pulled" es) := by
            simp [maxMatchingTs, hm, hr2]
          rw [hmax, hmax', Nat.max_assoc]
        · have hstep : pullScanStep nsName podName fieldPath (a, b) e = (a, b) := by
            simp [pullScanStep, hk, hn, hp, hf, hr, hr2]
          rw [hstep, ih]
          have hmax : maxMatchingTs nsName podName fieldPath "Pulling" (e :: es) =
              maxMatchingTs nsName podName fieldPath "Pulling" es := by
            simp [maxMatchingTs, hr]
          have hmax' : maxMatchingTs nsName podName fieldPath "Pulled" (e :: es) =
              maxMatchingTs nsName podName fieldPath "Pulled" es := by
            simp [maxMatchingTs, hr2]
          rw [hmax, hmax']
    · have hcond : e.involvedObject.kind ≠ "Pod" ∨
          e.involvedObject.nsName ≠ nsName ∨
          e.involvedObject.name ≠ podName ∨
          e.involvedObject.fieldPath ≠ fieldPath := by
        simp [eventMatches] at hm
        by_cases hk : e.involvedObject.kind = "Pod"
        · by_cases hn : e.involvedObject.nsName = nsName
          · by_cases hp : e.involvedObject.name = podName
            · exact Or.inr (Or.inr (Or.inr (hm hk hn hp)))
            · exact Or.inr (Or.inr (Or.inl hp))
          · exact Or.inr (Or.inl hn)
        · exact Or.inl hk
      have hstep : pullScanStep nsName podName fieldPath (a, b) e = (a, b) := by
        simp only [pullScanStep]
        rw [if_pos hcond]
      rw [hstep, ih]
      have hmax : maxMatchingTs nsName podName fieldPath "Pulling" (e :: es) =
          maxMatchingTs nsName podName fieldPath "Pulling" es := by
        simp [maxMatchingTs, hm]
      have hmax' : maxMatchingTs nsName podName fieldPath "Pulled" (e :: es) =
          maxMatchingTs nsName podName fieldPath "Pulled" es := by
        simp [maxMatchingTs, hm]
      rw [hmax, hmax']

/-- `isPulling` in terms of the two maxima. -/
theorem isPulling_eq (events : List Event) (nsName podName fieldPath : String) :
    isPulling events nsName podName fieldPath =
      (!(maxMatchingTs nsName podName fieldPath "Pulling" events == 0) &&
        (maxMatchingTs nsName podName fieldPath "Pulled" events == 0 ||
          maxMatchingTs nsName podName fieldPath "Pulled" events <
            maxMatchingTs nsName podName fieldPath "Pulling" events)) := by
  unfold isPulling
  rw [pullScan_eq_max]
  simp

/-- The maximum matching timestamp is nonzero exactly when a matching
event with the given reason and a nonzero timestamp exists. -/
theorem maxMatchingTs_ne_zero_iff (nsName podName fieldPath rsn : String)
    (events : List Event) :
    maxMatchingTs nsName podName fieldPath rsn events ≠ 0 ↔
      ∃ e ∈ events, eventMatches nsName podName fieldPath e = true ∧
        e.reason = rsn ∧ e.lastTimestamp ≠ 0 := by
  induction events with
  | nil => simp [maxMatchingTs]
  | cons e es ih =>
    by_cases hm : eventMatches nsName podName fieldPath e = true
    · by_cases hr : e.reason = rsn
      · have hstep : maxMatchingTs nsName podName fieldPath rsn (e :: es) =
            max e.lastTimestamp (maxMatchingTs nsName podName fieldPath rsn es) := by
          simp [maxMatchingTs, hm, hr]
        rw [hstep, Ne, Nat.max_eq_zero_iff, not_and_or]
        rw [← Ne, ← Ne, ih]
        simp [hm, hr]
      · have hstep : maxMatchingTs nsName podName fieldPath rsn (e :: es) =
            maxMatchingTs nsName podName fieldPath rsn es := by
          simp [maxMatchingTs, hr]
        rw [hstep, ih]
        simp [hr]
    · have hstep : maxMatchingTs nsName podName fieldPath rsn (e :: es) =
          maxMatchingTs nsName podName fieldPath rsn es := by
        simp [maxMatchingTs, hm]
      rw [hstep, ih]
      simp [hm]

/-- **C1** (amended).  `isPulling` disregards matching cached events whose
last timestamp is the zero time (the code uses the zero time as "unset").
With matching restricted to events carrying a nonzero timestamp: for every
namespace, pod name and field path, `isPulling` returns `false` when no
matching cached event with reason `"Pulling"` exists; returns `true` when
a matching `"Pulling"` event exists and no matching `"Pulled"` event
exists; returns `true` when the maximum timestamp among matching
`"Pulled"` events is strictly earlier than the maximum among matching
`"Pulling"` events; and returns `false` otherwise. -/
theorem isPulling_spec (events : List Event)
    (nsName podName fieldPath : String) :
    ((¬ ∃ e ∈ events, eventMatches nsName podName fieldPath e = true ∧
        e.reason = "Pulling" ∧ e.lastTimestamp ≠ 0) →
      isPulling events nsName podName fieldPath = false) ∧
    ((∃ e ∈ events, eventMatches nsName podName fieldPath e = true ∧
        e.reason = "Pulling" ∧ e.lastTimestamp ≠ 0) →
      (¬ ∃ e ∈ events, eventMatches nsName podName fieldPath e = true ∧
          e.reason = "Pulled" ∧ e.lastTimestamp ≠ 0) →
      isPulling events nsName podName fieldPath = true) ∧
    (maxMatchingTs nsName podName fieldPath "Pulled" events <
        maxMatchingTs nsName podName fieldPath "Pulling" events →
      isPulling events nsName podName fieldPath = true) ∧
    ((∃ e ∈ events, eventMatches nsName podName fieldPath e = true ∧
        e.reason = "Pulling" ∧ e.lastTimestamp ≠ 0) →
      (∃ e ∈ events, eventMatches nsName podName fieldPath e = true ∧
          e.reason = "Pulled" ∧ e.lastTimestamp ≠ 0) →
      maxMatchingTs nsName podName fieldPath "Pulling" events ≤
        maxMatchingTs nsName podName fieldPath "Pulled" events →
      isPulling events nsName podName fieldPath = false) := by
  refine ⟨?_, ?_, ?_, ?_⟩
  · intro h
    rw [← maxMatchingTs_ne_zero_iff, not_not] at h
    rw [isPulling_eq, h]
    simp
  · intro hP hD
    rw [← maxMatchingTs_ne_zero_iff] at hP
    rw [← maxMatchingTs_ne_zero_iff, not_not] at hD
    rw [isPulling_eq, hD]
    simp [hP]
  · intro h
    have hP : maxMatchingTs nsName podName fieldPath "Pulling" events ≠ 0 := by
      omega
    rw [isPulling_eq]
    simp [hP, h]
  · intro hP hD hle
    rw [← maxMatchingTs_ne_zero_iff] at hP hD
    rw [isPulling_eq]
    simp [hP, hD]
    omega

/-- Witness for `isPulling_spec`: the spec's own three test vectors, each
obtained from the theorem at a concrete event list. -/
theorem isPulling_spec_witness :
    isPulling
        [{ involvedObject :=
             { kind := "Pod", nsName := "n", name := "p", fieldPath := "f" }
           reason := "Pulling", lastTimestamp := 10 }] "n" "p" "f" = true ∧
    isPulling
        [{ involvedObject :=
             { kind := "Pod", nsName := "n", name := "p", fieldPath := "f" }
           reason := "Pulling", lastTimestamp := 10 },
         { involvedObject :=
             { kind := "Pod", nsName := "n", name := "p", fieldPath := "f" }
           reason := "Pulled", lastTimestamp := 20 }] "n" "p" "f" = false ∧
    isPulling
        [{ involvedObject :=
             { kind := "Pod", nsName := "n", name := "p", fieldPath := "f" }
           reason := "Pulling", lastTimestamp := 30 },
         { involvedObject :=
             { kind := "Pod", nsName := "n", name := "p", fieldPath := "f" }
           reason := "Pulled", lastTimestamp := 20 }] "n" "p" "f" = true := by
  refine ⟨?_, ?_, ?_⟩
  · exact (isPulling_spec _ "n" "p" "f").2.1 (by decide) (by decide)
  · exact (isPulling_spec _ "n" "p" "f").2.2.2 (by decide) (by decide)
      (by decide)
  · exact (isPulling_spec _ "n" "p" "f").2.2.1 (by decide)

/-- Counterexample to C1 as stated: a single matching `"Pulling"` event
whose last timestamp is the zero time, and no `"Pulled"` event.  The claim
says `isPulling` returns `true`; the code returns `false`, because it
treats the zero timestamp as "no pull has started". -/
theorem isPulling_claim_counterexample :
    (∃ e ∈ [{ involvedObject :=
                { kind := "Pod", nsName := "n", name := "p", fieldPath := "f" }
              reason := "Pulling", lastTimestamp := 0 : Event }],
        eventMatches "n" "p" "f" e = true ∧ e.reason = "Pulling") ∧
    (¬ ∃ e ∈ [{ involvedObject :=
                  { kind := "Pod", nsName := "n", name := "p", fieldPath := "f" }
                reason := "Pulling", lastTimestamp := 0 : Event }],
        eventMatches "n" "p" "f" e = true ∧ e.reason = "Pulled") ∧
    isPulling
        [{ involvedObject :=
             { kind := "Pod", nsName := "n", name := "p", fieldPath := "f" }
           reason := "Pulling", lastTimestamp := 0 }] "n" "p" "f" = false := by
  refine ⟨by decide, by decide, by decide⟩

/-! ## Theorems: the classifier (C2, C3, C7) -/

/-- An init-container status the loop skips: terminated with reason
exactly `Completed`. -/
def isCompletedInit (c : ContainerStatus) : Bool :=
  match c.state.terminated with
  | some t => t.reason == "Completed"
  | none => false

/-- Unfolding characterization of `isCompletedInit`. -/
theorem isCompletedInit_eq_true_iff (c : ContainerStatus) :
    isCompletedInit c = true ↔
      ∃ t, c.state.terminated = some t ∧ t.reason = "Completed" := by
  unfold isCompletedInit
  cases h : c.state.terminated with
  | none => simp
  | some t => simp

/-- The init-container loop skips every completed init container. -/
theorem initContainerScan_append_completed (events : List Event)
    (nsName podName : String) :
    ∀ (pre l : List ContainerStatus),
      (∀ x ∈ pre, isCompletedInit x = true) →
      initContainerScan events nsName podName (pre ++ l) =
        initContainerScan events nsName podName l := by
  intro pre
  induction pre with
  | nil => intro l _; simp
  | cons x pre' ih =>
    intro l hpre
    obtain ⟨t, ht, hr⟩ := (isCompletedInit_eq_true_iff x).mp
      (hpre x (List.mem_cons_self x pre'))
    have : initContainerScan events nsName podName ((x :: pre') ++ l) =
        initContainerScan events nsName podName (pre' ++ l) := by
      simp [initContainerScan, ht, hr]
    rw [this, ih l (fun y hy => hpre y (List.mem_cons_of_mem x hy))]

/-- On a non-completed init container, the loop returns without looking at
the rest of the list, and it does return (`some`). -/
theorem initContainerScan_cons_blocking (events : List Event)
    (nsName podName : String) (c : ContainerStatus)
    (hc : isCompletedInit c = false) (rest : List ContainerStatus) :
    initContainerScan events nsName podName (c :: rest) =
      initContainerScan events nsName podName [c] ∧
    (initContainerScan events nsName podName [c]).isSome := by
  cases ht : c.state.terminated with
  | some t =>
    have hr : ¬t.reason = "Completed" := by
      intro h
      rw [(isCompletedInit_eq_true_iff c).mpr ⟨t, ht, h⟩] at hc
      simp at hc
    constructor
    · simp [initContainerScan, ht, hr]
    · simp [initContainerScan, ht, hr]
  | none =>
    constructor
    · simp only [initContainerScan, ht]
    · simp only [initContainerScan, ht]
      by_cases hn : c.name = ContainerNameInitializeVolumeFromImage
      · by_cases hf : isImagePullFailure c = true
        · simp [hn, hf]
        · by_cases hp : isPulling events nsName podName
              ("spec.initContainers\x7b" ++
                ContainerNameInitializeVolumeFromImage ++ "\x7d") = true
          · simp [hn, hf, hp]
          · simp [hn, hf, hp]
      · simp [hn]

/-- **C2**: for every pod, the classifier's result is decided by the first
init-container status in declared order that is not terminated with reason
exactly `Completed`: completed init containers before it are skipped, the
ones after it are never examined (the result equals the scan of the
deciding container alone), and when the deciding container is terminated
(reason ≠ `Completed`) the result is the phase mapped from its name with
message `Unexpected system error: ` followed by the terminated message. -/
theorem getServiceStatus_first_blocking_init (events : List Event)
    (pod : Pod) (pre : List ContainerStatus) (c : ContainerStatus)
    (post : List ContainerStatus)
    (hinit : pod.status.initContainerStatuses = pre ++ c :: post)
    (hpre : ∀ x ∈ pre, isCompletedInit x = true)
    (hc : isCompletedInit c = false) :
    (∃ st, initContainerScan events pod.nsName pod.name [c] = some st ∧
      getServiceStatus events pod = st) ∧
    (∀ t, c.state.terminated = some t →
      getServiceStatus events pod =
        { phase := initContainerPhase c.name
          msg := "Unexpected system error: " ++ t.message }) := by
  obtain ⟨hhead, hsome⟩ :=
    initContainerScan_cons_blocking events pod.nsName pod.name c hc post
  have hscan : initContainerScan events pod.nsName pod.name
      pod.status.initContainerStatuses =
      initContainerScan events pod.nsName pod.name [c] := by
    rw [hinit, initContainerScan_append_completed events pod.nsName pod.name
      pre (c :: post) hpre, hhead]
  obtain ⟨st, hst⟩ := Option.isSome_iff_exists.mp hsome
  constructor
  · refine ⟨st, hst, ?_⟩
    unfold getServiceStatus
    rw [hscan, hst]
  · intro t ht
    have hr : ¬t.reason = "Completed" := by
      intro h
      rw [(isCompletedInit_eq_true_iff c).mpr ⟨t, ht, h⟩] at hc
      simp at hc
    unfold getServiceStatus
    rw [hscan]
    simp [initContainerScan, ht, hr]

/-- A completed `copy-busybox` init-container status (sample data). -/
def busyboxCompleted : ContainerStatus :=
  { name := "copy-busybox"
    state := { terminated := some { reason := "Completed" } } }

/-- An abnormally terminated `wait-depends-on` init-container status
(sample data). -/
def waitDependsOnError : ContainerStatus :=
  { name := "wait-depends-on"
    state := { terminated := some { reason := "Error", message := "boom" } } }

/-- A pod whose init containers are `[copy-busybox (Completed),
wait-depends-on (Terminated, reason Error)]` (sample data). -/
def initErrorPod : Pod :=
  { nsName := "n", name := "p"
    status := { initContainerStatuses := [busyboxCompleted, waitDependsOnError] } }

/-- Witness for `getServiceStatus_first_blocking_init`: on `initErrorPod`
the classifier reports the abnormal termination of the second init
container. -/
theorem getServiceStatus_first_blocking_init_witness :
    getServiceStatus [] initErrorPod =
      { phase := .WAIT_DEPENDS_ON
        msg := "Unexpected system error: boom" } := by
  have h := getServiceStatus_first_blocking_init [] initErrorPod
    [busyboxCompleted] waitDependsOnError [] rfl (by decide) (by decide)
  have h2 := h.2 { reason := "Error", message := "boom" } rfl
  rw [h2]
  decide

/-- When every init container terminated with reason `Completed`, the
init-container loop falls through. -/
theorem initContainerScan_all_completed (events : List Event)
    (nsName podName : String) (l : List ContainerStatus)
    (h : ∀ x ∈ l, isCompletedInit x = true) :
    initContainerScan events nsName podName l = none := by
  have happ := initContainerScan_append_completed events nsName podName l [] h
  simpa using happ

/-- A container status waiting with a pull-failure reason satisfies
`isImagePullFailure`. -/
theorem isImagePullFailure_of_waiting (cs : ContainerStatus)
    (w : ContainerStateWaiting) (hw : cs.state.waiting = some w)
    (hr : w.reason = "ErrImagePull" ∨ w.reason = "ImagePullBackOff") :
    isImagePullFailure cs = true := by
  unfold isImagePullFailure
  rw [hw]
  simpa using hr

/-- **C3**: a blocking container that is waiting with a
pull-failure-indicating reason (`ErrImagePull` or `ImagePullBackOff`)
makes the classifier return `PENDING` with the fixed pull-failure message,
regardless of restart count — both when the blocker is the
volume-initialization init container (first non-completed init container)
and when it is the single main container with no blocking init
container. -/
theorem getServiceStatus_pull_failure (events : List Event) (pod : Pod) :
    (∀ pre c post (w : ContainerStateWaiting),
      pod.status.initContainerStatuses = pre ++ c :: post →
      (∀ x ∈ pre, isCompletedInit x = true) →
      c.state.terminated = none →
      c.name = ContainerNameInitializeVolumeFromImage →
      c.state.waiting = some w →
      (w.reason = "ErrImagePull" ∨ w.reason = "ImagePullBackOff") →
      getServiceStatus events pod =
        { phase := .PENDING, msg := imagePullFailureMsg }) ∧
    (∀ cs (w : ContainerStateWaiting),
      (∀ x ∈ pod.status.initContainerStatuses, isCompletedInit x = true) →
      pod.status.containerStatuses = [cs] →
      cs.state.running = none →
      cs.state.waiting = some w →
      (w.reason = "ErrImagePull" ∨ w.reason = "ImagePullBackOff") →
      getServiceStatus events pod =
        { phase := .PENDING, msg := imagePullFailureMsg }) := by
  constructor
  · intro pre c post w hinit hpre ht hn hw hr
    have hfail := isImagePullFailure_of_waiting c w hw hr
    unfold getServiceStatus
    rw [hinit,
      initContainerScan_append_completed events pod.nsName pod.name pre
        (c :: post) hpre]
    simp [initContainerScan, ht, hn, hfail]
  · intro cs w hinits hcs hrun hw hr
    have hfail := isImagePullFailure_of_waiting cs w hw hr
    unfold getServiceStatus
    rw [initContainerScan_all_completed events pod.nsName pod.name
      pod.status.initContainerStatuses hinits, hcs]
    simp [mainContainerScan, hrun, hw, hfail]

/-- The volume-initialization init container waiting on `ErrImagePull`
(sample data). -/
def initVolumePullFail : ContainerStatus :=
  { name := "initialize-volume-from-image"
    state := { waiting := some { reason := "ErrImagePull" } } }

/-- The spec's end-to-end pod: init containers `[copy-busybox (Completed),
initialize-volume-from-image (Waiting, ErrImagePull)]` (sample data). -/
def pullFailInitPod : Pod :=
  { nsName := "n", name := "p"
    status := { initContainerStatuses := [busyboxCompleted, initVolumePullFail] } }

/-- A single main container waiting on `ImagePullBackOff` with a nonzero
restart count (sample data). -/
def mainPullFailStatus : ContainerStatus :=
  { name := "svc"
    state := { waiting := some { reason := "ImagePullBackOff" } }
    restartCount := 5 }

/-- A pod with no init containers and one main container waiting on
`ImagePullBackOff` (sample data). -/
def mainPullFailPod : Pod :=
  { nsName := "n", name := "p"
    status := { containerStatuses := [mainPullFailStatus] } }

/-- Witness for `getServiceStatus_pull_failure`: the spec's end-to-end
init-container example, and a main-container example with restart count 5,
both classified `PENDING` with the fixed pull-failure message. -/
theorem getServiceStatus_pull_failure_witness :
    getServiceStatus [] pullFailInitPod =
      { phase := .PENDING, msg := imagePullFailureMsg } ∧
    getServiceStatus [] mainPullFailPod =
      { phase := .PENDING, msg := imagePullFailureMsg } := by
  constructor
  · exact (getServiceStatus_pull_failure [] pullFailInitPod).1
      [busyboxCompleted] initVolumePullFail [] { reason := "ErrImagePull" }
      rfl (by decide) rfl rfl rfl (Or.inl rfl)
  · exact (getServiceStatus_pull_failure [] mainPullFailPod).2
      mainPullFailStatus { reason := "ImagePullBackOff" }
      (by decide) rfl rfl rfl (Or.inr rfl)

/-- **C7**: for every pod with no non-completed init container that does
not declare exactly one main container, or whose single container status
has none of the running / waiting / terminated states set, the classifier
maps the pod-level phase: `Running` → `RUNNING`, `Pending` → `PENDING`,
`Succeeded` or `Failed` → `EXITED`, anything else → `UNKNOWN`. -/
theorem getServiceStatus_pod_phase_fallback (events : List Event)
    (pod : Pod)
    (hinits : ∀ x ∈ pod.status.initContainerStatuses, isCompletedInit x = true)
    (hmain : pod.status.containerStatuses.length ≠ 1 ∨
      ∃ cs, pod.status.containerStatuses = [cs] ∧ cs.state.running = none ∧
        cs.state.waiting = none ∧ cs.state.terminated = none) :
    getServiceStatus events pod =
      if pod.status.phase = "Running" then { phase := .RUNNING }
      else if pod.status.phase = "Pending" then { phase := .PENDING }
      else if pod.status.phase = "Succeeded" ∨ pod.status.phase = "Failed" then
        { phase := .EXITED }
      else { phase := .UNKNOWN } := by
  unfold getServiceStatus
  rw [initContainerScan_all_completed events pod.nsName pod.name
    pod.status.initContainerStatuses hinits]
  rcases hmain with hlen | ⟨cs, hcs, hrun, hw, ht⟩
  · cases hl : pod.status.containerStatuses with
    | nil => simp [podPhaseFallback]
    | cons cs rest =>
      cases rest with
      | nil => rw [hl] at hlen; simp at hlen
      | cons cs' rest' => simp [podPhaseFallback]
  · rw [hcs]
    simp [mainContainerScan, hrun, hw, ht, podPhaseFallback]

/-- A pod with two main containers losing all container detail (sample
data). -/
def twoContainerPod : Pod :=
  { nsName := "n", name := "p"
    status := { phase := "Succeeded"
                containerStatuses := [{ name := "a" }, { name := "b" }] } }

/-- Witness for `getServiceStatus_pod_phase_fallback`: a `Succeeded` pod
with two container statuses is classified `EXITED` from the pod phase. -/
theorem getServiceStatus_pod_phase_fallback_witness :
    getServiceStatus [] twoContainerPod = { phase := .EXITED } := by
  have h := getServiceStatus_pod_phase_fallback [] twoContainerPod
    (by decide) (Or.inl (by decide))
  rw [h]
  decide

/-! ## Theorems: Get (C4, C5, C6, C10) -/

/-- **C4**: `Get` maps a not-found namespace lookup to `DOES_NOT_EXIST`
with a nil error; every other lookup error, and every pod-list error, is
returned wrapped with operation context — never nil, never swallowed. -/
theorem Get_error_handling (sf : StatusFetcher) (nsName : String) :
    (sf.nsLookup nsName = .notFound →
      Get sf nsName = .ok { phase := .DOES_NOT_EXIST }) ∧
    (∀ e, sf.nsLookup nsName = .lookupErr e →
      Get sf nsName = .error (withContext "get sandbox" e)) ∧
    (∀ ph e, sf.nsLookup nsName = .found ph → ph ≠ "Terminating" →
      sf.podListErr nsName = some e →
      Get sf nsName = .error (withContext "get services" e)) := by
  refine ⟨?_, ?_, ?_⟩
  · intro h
    simp [Get, h]
  · intro e h
    simp [Get, h]
  · intro ph e hns hph hpl
    simp [Get, hns, hph, listSandboxPods, hpl]

/-- Witness for `Get_error_handling`: the three error shapes at concrete
fetchers. -/
theorem Get_error_handling_witness :
    Get { nsLookup := fun _ => .notFound } "n" =
      .ok { phase := .DOES_NOT_EXIST } ∧
    Get { nsLookup := fun _ => .lookupErr "boom" } "n" =
      .error "get sandbox: boom" ∧
    Get { nsLookup := fun _ => .found "Active"
          podListErr := fun _ => some "down" } "n" =
      .error "get services: down" := by
  refine ⟨?_, ?_, ?_⟩
  · exact (Get_error_handling { nsLookup := fun _ => .notFound } "n").1 rfl
  · exact (Get_error_handling { nsLookup := fun _ => .lookupErr "boom" } "n").2.1
      "boom" rfl
  · exact (Get_error_handling
      { nsLookup := fun _ => .found "Active"
        podListErr := fun _ => some "down" } "n").2.2 "Active" "down" rfl
      (by decide) rfl

/-- **C5**: on a namespace whose cached phase is terminating, `Get`
returns `TERMINATING` with an empty services map and a nil error — also
when pods of that namespace are cached (the fetcher is arbitrary) — and
the services map of any successful `Get` is populated only when the
returned phase is `RUNNING`. -/
theorem Get_terminating (sf : StatusFetcher) (nsName : String) :
    (sf.nsLookup nsName = .found "Terminating" →
      Get sf nsName = .ok { phase := .TERMINATING, services := [] }) ∧
    (∀ st, Get sf nsName = .ok st → st.services ≠ [] →
      st.phase = .RUNNING) := by
  constructor
  · intro h
    simp [Get, h]
  · intro st hget hsvc
    unfold Get at hget
    cases hns : sf.nsLookup nsName with
    | notFound =>
      rw [hns] at hget
      simp at hget
      rw [← hget] at hsvc
      simp at hsvc
    | lookupErr e =>
      rw [hns] at hget
      simp at hget
    | found ph =>
      rw [hns] at hget
      by_cases hph : ph = "Terminating"
      · simp only [hph, if_pos rfl] at hget
        simp at hget
        rw [← hget] at hsvc
        simp at hsvc
      · simp only [if_neg hph] at hget
        cases hpl : listSandboxPods sf nsName with
        | error e => simp [hpl] at hget
        | ok pods =>
          simp only [hpl] at hget
          simp at hget
          rw [← hget]

/-- A sandbox-labeled pod of namespace `n` (sample data). -/
def cachedSandboxPod : Pod :=
  { nsName := "n", name := "p"
    labels := [("blimp.customerPod", "true"), ("blimp.service", "web")]
    status := { phase := "Running" } }

/-- Witness for `Get_terminating`: a terminating namespace whose cache
still holds a sandbox pod yields `TERMINATING` with no services. -/
theorem Get_terminating_witness :
    Get { nsLookup := fun _ => .found "Terminating"
          pods := [cachedSandboxPod] } "n" =
      .ok { phase := .TERMINATING, services := [] } := by
  exact (Get_terminating
    { nsLookup := fun _ => .found "Terminating"
      pods := [cachedSandboxPod] } "n").1 rfl

/-- Lookup after insert-replace: the inserted key reads the new value,
every other key is untouched. -/
theorem alLookup_alInsert {α β : Type} [DecidableEq α]
    (l : List (α × β)) (k' k : α) (v : β) :
    alLookup (alInsert l k' v) k = if k' = k then some v else alLookup l k := by
  induction l with
  | nil => simp [alInsert, alLookup]
  | cons kv rest ih =>
    obtain ⟨a, b⟩ := kv
    by_cases ha : a = k'
    · subst ha
      simp [alInsert, alLookup]
      by_cases hk : a = k
      · simp [hk]
      · simp [hk, alLookup]
    · simp only [alInsert, if_neg ha]
      by_cases hk : a = k
      · subst hk
        have hk' : ¬k' = a := fun h => ha h.symm
        simp [alLookup, hk']
      · simp [alLookup, hk, ih]

/-- Lookup in the insert-replace fold of `Get`'s services loop: the value
of the last list element with the given key, else the accumulator's
value. -/
theorem alLookup_foldl_insert (keyf : Pod → String)
    (valf : Pod → ServiceStatus) :
    ∀ (l : List Pod) (acc : List (String × ServiceStatus)) (k : String),
      alLookup (l.foldl (fun m x => alInsert m (keyf x) (valf x)) acc) k =
        match l.reverse.find? (fun x => keyf x == k) with
        | some x => some (valf x)
        | none => alLookup acc k := by
  intro l
  induction l with
  | nil => intro acc k; simp
  | cons x l' ih =>
    intro acc k
    rw [List.foldl_cons, ih]
    rw [List.reverse_cons, List.find?_append]
    cases hfind : l'.reverse.find? (fun x => keyf x == k) with
    | some y => simp [Option.or]
    | none =>
      simp only [Option.or, alLookup_alInsert]
      by_cases hk : keyf x = k
      · simp [List.find?, hk]
      · have : (keyf x == k) = false := by simp [hk]
        simp [List.find?, this, hk]

/-- Lookup in `buildServices`: the classifier result of the last pod in
list order whose `blimp.service` label reads `k`. -/
theorem alLookup_buildServices (sf : StatusFetcher) (pods : List Pod)
    (k : String) :
    alLookup (buildServices sf pods) k =
      (pods.reverse.find? (fun p => getLabel p "blimp.service" == k)).map
        (fun p => getServiceStatus (sf.events p.nsName) p) := by
  unfold buildServices
  rw [alLookup_foldl_insert]
  cases hfind : pods.reverse.find? (fun p => getLabel p "blimp.service" == k)
    with
  | some y => simp
  | none => simp [alLookup]

/-- Key membership after insert-replace. -/
theorem alKeys_alInsert_mem {α β : Type} [DecidableEq α]
    (l : List (α × β)) (k' k : α) (v : β) :
    k ∈ (alInsert l k' v).map Prod.fst ↔ k = k' ∨ k ∈ l.map Prod.fst := by
  induction l with
  | nil => simp [alInsert]
  | cons kv rest ih =>
    obtain ⟨a, b⟩ := kv
    by_cases ha : a = k'
    · subst ha
      simp [alInsert]
    · simp only [alInsert, if_neg ha, List.map_cons, List.mem_cons, ih]
      tauto

/-- Insert-replace keeps the keys duplicate-free. -/
theorem alKeys_alInsert_nodup {α β : Type} [DecidableEq α]
    (l : List (α × β)) (k' : α) (v : β) (h : (l.map Prod.fst).Nodup) :
    ((alInsert l k' v).map Prod.fst).Nodup := by
  induction l with
  | nil => simp [alInsert]
  | cons kv rest ih =>
    obtain ⟨a, b⟩ := kv
    simp only [List.map_cons, List.nodup_cons] at h
    by_cases ha : a = k'
    · subst ha
      simp only [alInsert]
      rw [if_true]
      simpa using h
    · simp only [alInsert, if_neg ha, List.map_cons, List.nodup_cons]
      constructor
      · rw [alKeys_alInsert_mem]
        rintro (hk | hk)
        · exact ha hk
        · exact h.1 hk
      · exact ih h.2

/-- The services fold keeps the keys duplicate-free. -/
theorem buildServices_foldl_keys_nodup (keyf : Pod → String)
    (valf : Pod → ServiceStatus) :
    ∀ (l : List Pod) (acc : List (String × ServiceStatus)),
      (acc.map Prod.fst).Nodup →
      ((l.foldl (fun m x => alInsert m (keyf x) (valf x)) acc).map
        Prod.fst).Nodup := by
  intro l
  induction l with
  | nil => intro acc h; simpa using h
  | cons x l' ih =>
    intro acc h
    exact ih (alInsert acc (keyf x) (valf x)) (alKeys_alInsert_nodup acc _ _ h)

/-- Key membership in the services fold. -/
theorem buildServices_foldl_keys_mem (keyf : Pod → String)
    (valf : Pod → ServiceStatus) :
    ∀ (l : List Pod) (acc : List (String × ServiceStatus)) (k : String),
      k ∈ (l.foldl (fun m x => alInsert m (keyf x) (valf x)) acc).map
          Prod.fst ↔
        (∃ p ∈ l, keyf p = k) ∨ k ∈ acc.map Prod.fst := by
  intro l
  induction l with
  | nil => intro acc k; simp
  | cons x l' ih =>
    intro acc k
    rw [List.foldl_cons, ih, alKeys_alInsert_mem]
    constructor
    · rintro (⟨p, hp, hk⟩ | hk | hk)
      · exact Or.inl ⟨p, List.mem_cons_of_mem x hp, hk⟩
      · exact Or.inl ⟨x, List.mem_cons_self x l', hk.symm⟩
      · exact Or.inr hk
    · rintro (⟨p, hp, hk⟩ | hk)
      · rcases List.mem_cons.mp hp with hpx | hp'
        · subst hpx; exact Or.inr (Or.inl hk.symm)
        · exact Or.inl ⟨p, hp', hk⟩
      · exact Or.inr (Or.inr hk)

/-- **C6**: on a found, non-terminating namespace, `Get` returns phase
`RUNNING` with a services map built from exactly the cached pods of that
namespace carrying the `blimp.customerPod: true` label: looking up any key
`k` yields the classifier's result for the (latest) such pod whose
`blimp.service` label reads `k`, and nothing else. -/
theorem Get_running_services (sf : StatusFetcher) (nsName ph : String)
    (hns : sf.nsLookup nsName = .found ph) (hph : ph ≠ "Terminating")
    (hpl : sf.podListErr nsName = none) :
    ∃ st, Get sf nsName = .ok st ∧ st.phase = .RUNNING ∧
      ∀ k, alLookup st.services k =
        (((sf.pods.filter
              (fun p => p.nsName == nsName && isSandboxPod p)).reverse.find?
            (fun p => getLabel p "blimp.service" == k)).map
          (fun p => getServiceStatus (sf.events p.nsName) p)) := by
  have hget : Get sf nsName = .ok
      { phase := .RUNNING
        services := buildServices sf
          (sf.pods.filter (fun p => p.nsName == nsName && isSandboxPod p)) } := by
    simp [Get, hns, hph, listSandboxPods, hpl]
  exact ⟨_, hget, rfl, fun k => alLookup_buildServices sf _ k⟩

/-- **C10**: on a successful `RUNNING` result, the services map has
exactly one entry per distinct `blimp.service` label value among the
listed sandbox pods (keys are duplicate-free and are exactly those label
values); the value under a key is the classifier result of the pod
appearing latest in list order with that label; and a pod lacking the
label is keyed under the empty string. -/
theorem Get_services_one_entry_per_service (sf : StatusFetcher)
    (nsName ph : String)
    (hns : sf.nsLookup nsName = .found ph) (hph : ph ≠ "Terminating")
    (hpl : sf.podListErr nsName = none) :
    ∃ st, Get sf nsName = .ok st ∧
      (st.services.map Prod.fst).Nodup ∧
      (∀ k, k ∈ st.services.map Prod.fst ↔
        ∃ p ∈ sf.pods.filter (fun p => p.nsName == nsName && isSandboxPod p),
          getLabel p "blimp.service" = k) ∧
      (∀ k, alLookup st.services k =
        (((sf.pods.filter
              (fun p => p.nsName == nsName && isSandboxPod p)).reverse.find?
            (fun p => getLabel p "blimp.service" == k)).map
          (fun p => getServiceStatus (sf.events p.nsName) p))) ∧
      (∀ p ∈ sf.pods.filter (fun p => p.nsName == nsName && isSandboxPod p),
        findLabel p "blimp.service" = none →
        "" ∈ st.services.map Prod.fst) := by
  have hget : Get sf nsName = .ok
      { phase := .RUNNING
        services := buildServices sf
          (sf.pods.filter (fun p => p.nsName == nsName && isSandboxPod p)) } := by
    simp [Get, hns, hph, listSandboxPods, hpl]
  refine ⟨_, hget, ?_, ?_, ?_, ?_⟩
  · exact buildServices_foldl_keys_nodup _ _ _ [] (by simp)
  · intro k
    rw [show (buildServices sf
        (sf.pods.filter (fun p => p.nsName == nsName && isSandboxPod p))) =
        ((sf.pods.filter (fun p => p.nsName == nsName && isSandboxPod p)).foldl
          (fun m x => alInsert m (getLabel x "blimp.service")
            (getServiceStatus (sf.events x.nsName) x)) []) from rfl]
    rw [buildServices_foldl_keys_mem]
    simp
  · exact fun k => alLookup_buildServices sf _ k
  · intro p hp hlab
    rw [show (buildServices sf
        (sf.pods.filter (fun p => p.nsName == nsName && isSandboxPod p))) =
        ((sf.pods.filter (fun p => p.nsName == nsName && isSandboxPod p)).foldl
          (fun m x => alInsert m (getLabel x "blimp.service")
            (getServiceStatus (sf.events x.nsName) x)) []) from rfl]
    rw [buildServices_foldl_keys_mem]
    exact Or.inl ⟨p, hp, by simp [getLabel, hlab]⟩

/-- A sandbox pod of namespace `n`, service label `web`, phase `Pending`
(sample data). -/
def dupPodA : Pod :=
  { nsName := "n", name := "a"
    labels := [("blimp.customerPod", "true"), ("blimp.service", "web")]
    status := { phase := "Pending" } }

/-- A second sandbox pod of namespace `n` with the same `web` service
label, phase `Running` (sample data). -/
def dupPodB : Pod :=
  { nsName := "n", name := "b"
    labels := [("blimp.customerPod", "true"), ("blimp.service", "web")]
    status := { phase := "Running" } }

/-- A sandbox pod of namespace `n` without a `blimp.service` label
(sample data). -/
def unlabeledPod : Pod :=
  { nsName := "n", name := "c"
    labels := [("blimp.customerPod", "true")]
    status := { phase := "Failed" } }

/-- A fetcher whose cache holds two pods sharing the `web` service label
and one unlabeled sandbox pod (sample data). -/
def dupLabelFetcher : StatusFetcher :=
  { nsLookup := fun _ => .found "Active"
    pods := [dupPodA, dupPodB, unlabeledPod] }

/-- Witness for `Get_running_services`: the `RUNNING` result whose `web`
entry is the classifier result of the later `web` pod. -/
theorem Get_running_services_witness :
    ∃ st, Get dupLabelFetcher "n" = .ok st ∧ st.phase = .RUNNING ∧
      alLookup st.services "web" = some (getServiceStatus [] dupPodB) := by
  obtain ⟨st, hget, hphase, hlook⟩ :=
    Get_running_services dupLabelFetcher "n" "Active" rfl (by decide) rfl
  refine ⟨st, hget, hphase, ?_⟩
  rw [hlook "web"]
  decide

/-- Witness for `Get_services_one_entry_per_service`: duplicate-free keys,
last-wins value for the duplicated `web` label, and the unlabeled pod
keyed under the empty string. -/
theorem Get_services_one_entry_per_service_witness :
    ∃ st, Get dupLabelFetcher "n" = .ok st ∧
      (st.services.map Prod.fst).Nodup ∧
      alLookup st.services "web" = some (getServiceStatus [] dupPodB) ∧
      "" ∈ st.services.map Prod.fst := by
  obtain ⟨st, hget, hnodup, hmem, hlook, hempty⟩ :=
    Get_services_one_entry_per_service dupLabelFetcher "n" "Active" rfl
      (by decide) rfl
  refine ⟨st, hget, hnodup, ?_, ?_⟩
  · rw [hlook "web"]
    decide
  · exact hempty unlabeledPod (by decide) rfl

/-! ## Theorems: the watcher registry (C8, C9) -/

/-- Lookup through a value-map of an association list. -/
theorem alLookup_map_values {α β : Type} [DecidableEq α] (f : β → β) :
    ∀ (l : List (α × β)) (k : α),
      alLookup (l.map (fun kv => (kv.1, f kv.2))) k =
        (alLookup l k).map f := by
  intro l
  induction l with
  | nil => intro k; simp [alLookup]
  | cons kv rest ih =>
    intro k
    by_cases hk : kv.1 = k
    · simp [alLookup, hk]
    · simp [alLookup, hk, ih]

/-- The channel registered by `Watch` starts empty. -/
theorem pendingOf_Watch (r : Registry) (nsName : String) :
    pendingOf (Watch r nsName).1 nsName (Watch r nsName).2 = some 0 := by
  unfold Watch pendingOf
  simp [alLookup_alInsert]

/-- One notification maps every pending count of the namespace through
`trySend`. -/
theorem pendingOf_notify (r : Registry) (nsName : String) (id : Nat) :
    pendingOf (notifyWatchers r nsName).1 nsName id =
      (pendingOf r nsName id).map (fun c => (trySend c).1) := by
  unfold notifyWatchers pendingOf
  cases h : alLookup r.watchers nsName with
  | none => simp [h]
  | some inner =>
    simp only [h, alLookup_alInsert, if_pos rfl]
    simp only [Option.some_bind]
    exact alLookup_map_values (fun c => (trySend c).1) inner id

/-- A channel already holding one signal still holds exactly one after any
further notifications. -/
theorem pendingOf_notifyRepeat_one :
    ∀ (n : Nat) (r : Registry) (nsName : String) (id : Nat),
      pendingOf r nsName id = some 1 →
      pendingOf (notifyRepeat n r nsName).1 nsName id = some 1 := by
  intro n
  induction n with
  | zero => intro r nsName id h; simpa [notifyRepeat] using h
  | succ m ih =>
    intro r nsName id h
    have h1 : pendingOf (notifyWatchers r nsName).1 nsName id = some 1 := by
      rw [pendingOf_notify, h]
      simp [trySend, chanCap]
    exact ih (notifyWatchers r nsName).1 nsName id h1

/-- No send attempt of `notifyWatchers` blocks. -/
theorem notify_outcomes_not_blocked (r : Registry) (nsName : String) :
    ∀ o ∈ (notifyWatchers r nsName).2, o ≠ .blocked := by
  unfold notifyWatchers
  cases h : alLookup r.watchers nsName with
  | none => simp
  | some inner =>
    simp only [List.mem_map]
    rintro o ⟨ic, _, rfl⟩
    unfold trySend
    by_cases hc : ic.2 < chanCap
    · simp [hc]
    · simp [hc]

/-- No send attempt of repeated notifications blocks. -/
theorem notifyRepeat_outcomes_not_blocked :
    ∀ (n : Nat) (r : Registry) (nsName : String),
      ∀ o ∈ (notifyRepeat n r nsName).2, o ≠ .blocked := by
  intro n
  induction n with
  | zero => intro r nsName o ho; simp [notifyRepeat] at ho
  | succ m ih =>
    intro r nsName o ho
    simp only [notifyRepeat, List.mem_append] at ho
    rcases ho with ho | ho
    · exact notify_outcomes_not_blocked r nsName o ho
    · exact ih (notifyWatchers r nsName).1 nsName o ho

/-- **C8**: for every starting registry, namespace and `n ≥ 1`, after
registering a subscriber with `Watch` and issuing `n` notifications for
the namespace before the subscriber reads, the subscriber's capacity-1
channel holds exactly one pending signal (never zero, never more), and no
send attempt of any notification blocks. -/
theorem notify_coalesces (r : Registry) (nsName : String) (n : Nat)
    (hn : 1 ≤ n) :
    pendingOf (notifyRepeat n (Watch r nsName).1 nsName).1 nsName
        (Watch r nsName).2 = some 1 ∧
    ∀ o ∈ (notifyRepeat n (Watch r nsName).1 nsName).2, o ≠ .blocked := by
  constructor
  · obtain ⟨m, rfl⟩ : ∃ m, n = m + 1 := ⟨n - 1, by omega⟩
    have h0 := pendingOf_Watch r nsName
    have h1 : pendingOf (notifyWatchers (Watch r nsName).1 nsName).1 nsName
        (Watch r nsName).2 = some 1 := by
      rw [pendingOf_notify, h0]
      simp [trySend, chanCap]
    exact pendingOf_notifyRepeat_one m _ nsName _ h1
  · exact notifyRepeat_outcomes_not_blocked n (Watch r nsName).1 nsName

/-- Witness for `notify_coalesces`: three back-to-back notifications after
a `Watch` on the empty registry leave exactly one pending signal. -/
theorem notify_coalesces_witness :
    pendingOf (notifyRepeat 3 (Watch {} "n").1 "n").1 "n" (Watch {} "n").2 =
        some 1 ∧
    ∀ o ∈ (notifyRepeat 3 (Watch {} "n").1 "n").2, o ≠ .blocked := by
  exact notify_coalesces {} "n" 3 (by decide)

/-- Insert-replace never produces the empty association list. -/
theorem alInsert_ne_nil {α β : Type} [DecidableEq α]
    (l : List (α × β)) (k : α) (v : β) : alInsert l k v ≠ [] := by
  cases l with
  | nil => simp [alInsert]
  | cons kv rest =>
    unfold alInsert
    by_cases hk : kv.1 = k
    · simp [hk]
    · simp [hk]

/-- After erasing a key it no longer resolves. -/
theorem alLookup_alErase_self {α β : Type} [DecidableEq α]
    (l : List (α × β)) (k : α) : alLookup (alErase l k) k = none := by
  induction l with
  | nil => simp [alErase, alLookup]
  | cons kv rest ih =>
    unfold alErase
    by_cases hk : kv.1 = k
    · simp [hk, ih]
    · simp [alLookup, hk, ih]

/-- Erasing one key leaves every other key's binding unchanged. -/
theorem alLookup_alErase_ne {α β : Type} [DecidableEq α]
    (l : List (α × β)) (k k' : α) (h : k' ≠ k) :
    alLookup (alErase l k) k' = alLookup l k' := by
  induction l with
  | nil => simp [alErase]
  | cons kv rest ih =>
    unfold alErase
    by_cases hk : kv.1 = k
    · have hkk : ¬k = k' := fun hh => h hh.symm
      simp [hk, ih, alLookup, hkk]
    · by_cases hk' : kv.1 = k'
      · simp [hk, alLookup, hk', h]
      · simp [hk, alLookup, hk', ih]

/-- `notifyWatchers` does not touch the id counter. -/
theorem notifyWatchers_idCtr (r : Registry) (nsName : String) :
    (notifyWatchers r nsName).1.idCtr = r.idCtr := by
  unfold notifyWatchers
  cases h : alLookup r.watchers nsName with
  | none => rfl
  | some inner => rfl

/-- `removeWatcher` does not touch the id counter. -/
theorem removeWatcher_idCtr (r : Registry) (nsName : String) (id : Nat) :
    (removeWatcher r nsName id).1.idCtr = r.idCtr := by
  unfold removeWatcher
  cases h : alLookup r.watchers nsName with
  | none => rfl
  | some inner =>
    by_cases he : (alErase inner id).isEmpty
    · simp [he]
    · simp [he]

/-- The ids allocated by a run are the successive values of the wrapping
counter: the `k`-th `watch` gets `(idCtr + k + 1) % 2 ^ 64`. -/
theorem runOps_ids :
    ∀ (ops : List WatcherOp) (r : Registry),
      (runOps r ops).2 =
        (List.range (countWatch ops)).map
          (fun k => (r.idCtr + k + 1) % goIntMod) := by
  intro ops
  induction ops with
  | nil => intro r; simp [runOps, countWatch]
  | cons op rest ih =>
    intro r
    cases op with
    | watch n =>
      show ((Watch r n).1, _).2 = _
      simp only [runOps]
      rw [ih (Watch r n).1]
      show ((r.idCtr + 1) % goIntMod) ::
          (List.range (countWatch rest)).map
            (fun k => ((r.idCtr + 1) % goIntMod + k + 1) % goIntMod) =
        (List.range (countWatch (.watch n :: rest))).map
          (fun k => (r.idCtr + k + 1) % goIntMod)
      have hcw : countWatch (.watch n :: rest) = countWatch rest + 1 := rfl
      have h2 : (List.range (countWatch rest)).map
            (fun k => ((r.idCtr + 1) % goIntMod + k + 1) % goIntMod) =
          (List.range (countWatch rest)).map
            ((fun k => (r.idCtr + k + 1) % goIntMod) ∘ Nat.succ) := by
        apply List.map_congr_left
        intro k _
        simp only [Function.comp_apply]
        unfold goIntMod
        omega
      rw [hcw, List.range_succ_eq_map, List.map_cons, List.map_map, h2]
    | notify n =>
      simp only [runOps]
      rw [ih (notifyWatchers r n).1, notifyWatchers_idCtr]
      rfl
    | remove n i =>
      simp only [runOps]
      rw [ih (removeWatcher r n i).1, removeWatcher_idCtr]
      rfl

/-- Successive wrapped counter values are pairwise distinct as long as no
more values are taken than the modulus. -/
theorem range_map_mod_nodup (c W : Nat) (hW : W ≤ goIntMod) :
    ((List.range W).map (fun k => (c + k + 1) % goIntMod)).Nodup := by
  apply List.Nodup.map_on
  · intro k1 hk1 k2 hk2 heq
    have h1 : k1 < goIntMod := lt_of_lt_of_le (List.mem_range.mp hk1) hW
    have h2 : k2 < goIntMod := lt_of_lt_of_le (List.mem_range.mp hk2) hW
    unfold goIntMod at h1 h2 heq
    omega
  · exact List.nodup_range W

/-- A run of `watch` operations only. -/
theorem countWatch_replicate (n : Nat) (nsName : String) :
    countWatch (List.replicate n (.watch nsName)) = n := by
  induction n with
  | zero => rfl
  | succ m ih => simp [List.replicate_succ, countWatch, ih]

/-- The registry's namespace-presence invariant: a namespace key resolves
only to a nonempty inner map. -/
def NsInv (r : Registry) : Prop :=
  ∀ nsName inner, alLookup r.watchers nsName = some inner → inner ≠ []

/-- `Watch` preserves the namespace-presence invariant. -/
theorem NsInv_Watch (r : Registry) (nsName : String) (h : NsInv r) :
    NsInv (Watch r nsName).1 := by
  intro ns' inner' hl
  unfold Watch at hl
  simp only at hl
  rw [alLookup_alInsert] at hl
  by_cases hns : nsName = ns'
  · rw [if_pos hns] at hl
    cases hl
    exact alInsert_ne_nil _ _ _
  · rw [if_neg hns] at hl
    exact h ns' inner' hl

/-- `notifyWatchers` preserves the namespace-presence invariant. -/
theorem NsInv_notify (r : Registry) (nsName : String) (h : NsInv r) :
    NsInv (notifyWatchers r nsName).1 := by
  intro ns' inner' hl
  unfold notifyWatchers at hl
  cases hlook : alLookup r.watchers nsName with
  | none => rw [hlook] at hl; exact h ns' inner' hl
  | some inner =>
    rw [hlook] at hl
    simp only [alLookup_alInsert] at hl
    by_cases hns : nsName = ns'
    · rw [if_pos hns] at hl
      cases hl
      have hne := h nsName inner hlook
      intro hmap
      exact hne (List.map_eq_nil_iff.mp hmap)
    · rw [if_neg hns] at hl
      exact h ns' inner' hl

/-- `removeWatcher` preserves the namespace-presence invariant. -/
theorem NsInv_remove (r : Registry) (nsName : String) (id : Nat)
    (h : NsInv r) : NsInv (removeWatcher r nsName id).1 := by
  intro ns' inner' hl
  unfold removeWatcher at hl
  cases hlook : alLookup r.watchers nsName with
  | none => rw [hlook] at hl; exact h ns' inner' hl
  | some inner =>
    rw [hlook] at hl
    by_cases he : (alErase inner id).isEmpty
    · simp only [he, if_true] at hl
      by_cases hns : ns' = nsName
      · rw [hns, alLookup_alErase_self] at hl
        cases hl
      · rw [alLookup_alErase_ne _ _ _ hns] at hl
        exact h ns' inner' hl
    · simp only [he, if_false, Bool.false_eq_true] at hl
      simp only [alLookup_alInsert] at hl
      by_cases hns : nsName = ns'
      · rw [if_pos hns] at hl
        cases hl
        intro hnil
        rw [hnil] at he
        exact he rfl
      · rw [if_neg hns] at hl
        exact h ns' inner' hl

/-- Every run from an invariant-satisfying registry preserves the
namespace-presence invariant. -/
theorem NsInv_runOps :
    ∀ (ops : List WatcherOp) (r : Registry), NsInv r →
      NsInv (runOps r ops).1 := by
  intro ops
  induction ops with
  | nil => intro r h; exact h
  | cons op rest ih =>
    intro r h
    cases op with
    | watch n => exact ih (Watch r n).1 (NsInv_Watch r n h)
    | notify n => exact ih (notifyWatchers r n).1 (NsInv_notify r n h)
    | remove n i => exact ih (removeWatcher r n i).1 (NsInv_remove r n i h)

/-- **C9** (amended): after every interleaving of watch, notify and
watcher-removal operations starting from the empty registry, the ids
allocated by `Watch` are pairwise distinct provided at most `2 ^ 64` of
them are allocated (the Go `int` id counter wraps, as the code's own
warning message anticipates); a namespace key is present in the watchers
map iff its inner map holds at least one live registration; removal is a
non-failing no-op, apart from the logged warning, when the namespace entry
is absent, and deletes the namespace entry when its inner map becomes
empty. -/
theorem registry_invariants (ops : List WatcherOp) :
    (countWatch ops ≤ goIntMod → (runOps {} ops).2.Nodup) ∧
    (∀ nsName, alLookup (runOps {} ops).1.watchers nsName ≠ none ↔
      ∃ inner, alLookup (runOps {} ops).1.watchers nsName = some inner ∧
        inner ≠ []) ∧
    (∀ (r : Registry) (nsName : String) (id : Nat),
      alLookup r.watchers nsName = none →
      removeWatcher r nsName id = (r, true)) ∧
    (∀ (r : Registry) (nsName : String) (id : Nat)
        (inner : List (Nat × Nat)),
      alLookup r.watchers nsName = some inner → alErase inner id = [] →
      alLookup (removeWatcher r nsName id).1.watchers nsName = none) := by
  have hinv : NsInv (runOps {} ops).1 := by
    apply NsInv_runOps
    intro nsName inner h
    simp [alLookup] at h
  refine ⟨?_, ?_, ?_, ?_⟩
  · intro hW
    rw [runOps_ids]
    exact range_map_mod_nodup ({} : Registry).idCtr (countWatch ops) hW
  · intro nsName
    constructor
    · intro hne
      cases hl : alLookup (runOps {} ops).1.watchers nsName with
      | none => exact absurd hl hne
      | some inner => exact ⟨inner, rfl, hinv nsName inner hl⟩
    · rintro ⟨inner, hl, _⟩ hnone
      rw [hl] at hnone
      cases hnone
  · intro r nsName id h
    unfold removeWatcher
    rw [h]
  · intro r nsName id inner h he
    simp only [removeWatcher, h, he, List.isEmpty_nil, if_true]
    exact alLookup_alErase_self r.watchers nsName

/-- Witness for `registry_invariants`: a concrete interleaving — two
watches on `a`, removal of both (emptying the namespace entry), then a
removal on an absent namespace — has distinct ids, and `removeWatcher` on
the absent namespace is a warning no-op. -/
theorem registry_invariants_witness :
    (runOps {} [.watch "a", .watch "a", .remove "a" 1, .remove "a" 2]).2.Nodup ∧
    alLookup
        (runOps {}
          [.watch "a", .watch "a", .remove "a" 1, .remove "a" 2]).1.watchers
        "a" = none ∧
    removeWatcher
        (runOps {}
          [.watch "a", .watch "a", .remove "a" 1, .remove "a" 2]).1 "b" 9 =
      ((runOps {}
          [.watch "a", .watch "a", .remove "a" 1, .remove "a" 2]).1, true) := by
  have h := registry_invariants
    [.watch "a", .watch "a", .remove "a" 1, .remove "a" 2]
  refine ⟨?_, ?_, ?_⟩
  · exact h.1 (by norm_num [countWatch, goIntMod])
  · have h4 := h.2.2.2
      ((runOps {} [.watch "a", .watch "a", .remove "a" 1]).1) "a" 2
      [(2, 0)] (by decide) (by decide)
    exact h4
  · exact h.2.2.1 _ "b" 9 (by decide)

/-- Counterexample to C9 as stated: after `2 ^ 64 + 1` watch operations
the Go `int` id counter has wrapped and the first id is allocated a second
time, so the allocated ids are not pairwise distinct. -/
theorem registry_ids_counterexample :
    ¬ (runOps {}
        (List.replicate (goIntMod + 1) (WatcherOp.watch "n"))).2.Nodup := by
  intro h
  rw [runOps_ids, countWatch_replicate] at h
  have hid : ({} : Registry).idCtr = 0 := rfl
  simp only [hid] at h
  have hmem0 : (0 : Nat) ∈ List.range (goIntMod + 1) := by
    rw [List.mem_range]
    omega
  have hmemM : goIntMod ∈ List.range (goIntMod + 1) := by
    rw [List.mem_range]
    omega
  have heq : (0 + 0 + 1) % goIntMod = (0 + goIntMod + 1) % goIntMod := by
    unfold goIntMod
    omega
  have h0 : (0 : Nat) = goIntMod :=
    List.inj_on_of_nodup_map h hmem0 hmemM heq
  unfold goIntMod at h0
  omega

end BlimpStatus
